import Mathlib

/-!
# Verification of the Gaetan-feed ingestion pipeline

Shallow embedding of `src/server/services/feedServices.js` and the article
store of `src/server/models/articles.js`.  JavaScript strings are modelled as
Lean `String`, `null`/`undefined` as `Option`, and the JS truthiness of
strings (the empty string is falsy) is made explicit through `strTruthy`.
Network effects (RSS parsing attempts, page scraping, date parsing, the
current time) are passed in as explicit oracles/parameters; everything else is
translated directly from the source.
-/

/-- JS truthiness for an optional string: `undefined`/`null` and the empty
string are falsy.  `strTruthy s` is `some v` exactly when the JS value is
truthy, carrying the value. -/
def strTruthy : Option String → Option String
  | none => none
  | some s => if s = "" then none else some s

/-- JS `a || b` on optional strings: first truthy operand. -/
def jsOrStr (a b : Option String) : Option String :=
  match strTruthy a with
  | some v => some v
  | none => strTruthy b

/-- ASCII lowercasing, modelling JS `String.prototype.toLowerCase` on the
ASCII texts the pipeline handles. -/
def strToLower (s : String) : String :=
  ⟨s.data.map Char.toLower⟩

/-- Substring containment, modelling JS `String.prototype.includes`. -/
def strContains (hay needle : String) : Bool :=
  hay.toList.tails.any (fun t => needle.toList.isPrefixOf t)

/-- First `min n (length s)` characters of `s`, modelling JS
`s.substring(0, n)`. -/
def strTake (s : String) (n : Nat) : String :=
  ⟨s.toList.take n⟩

/- ----------------------------------------------------------------
   Classifier (`categorizeArticle`, `calculateRelevance`)
   ---------------------------------------------------------------- -/

/-- `CATEGORY_KEYWORDS` from feedServices.js, in the object's insertion
order (the order `Object.entries` iterates). -/
def CATEGORY_KEYWORDS : List (String × List String) :=
  [ ("Capital Strategy",
      ["rate", "inflation", "capital", "market", "macro", "liquidity",
       "monetary", "fiscal"]),
    ("Private Markets & M&A",
      ["deal", "acquisition", "valuation", "lbo", "private equity", "funding",
       "term sheet", "merger", "buyout"]),
    ("Operational Excellence",
      ["productivity", "cost", "efficiency", "automation", "forecast",
       "transformation", "fp&a", "operations"]),
    ("Leadership & Conscious CFO",
      ["leadership", "culture", "behavior", "influence", "team", "decision",
       "mindset", "conscious"]),
    ("Africa Finance",
      ["africa", "african", "sub-saharan", "nigeria", "kenya",
       "south africa"]) ]

/-- Inner loop of `categorizeArticle`: does any keyword of the list occur in
the (already lowercased) text?  Keywords are lowercased as in the source
(`k.toLowerCase()`). -/
def anyKeywordIn (text : String) (keywords : List String) : Bool :=
  keywords.any (fun k => strContains text (strToLower k))

/-- Outer loop of `categorizeArticle` over the category/keyword entries. -/
def categorizeLoop (text : String) : List (String × List String) → String
  | [] => "Uncategorized"
  | (category, keywords) :: rest =>
      if anyKeywordIn text keywords then category else categorizeLoop text rest

/-- `categorizeArticle(title, description)` from feedServices.js: lowercase
the text built from title and description and return the first category (in
`CATEGORY_KEYWORDS` order) one of whose keywords occurs in it. -/
def categorizeArticle (title description : String) : String :=
  categorizeLoop (strToLower (title ++ " " ++ description)) CATEGORY_KEYWORDS

/-- The claim's reading of the classifier: in the fixed priority order, find
the first category with any keyword contained in the lowercased text; when
none matches, `Uncategorized`. -/
def categorizeSpec (title description : String) : String :=
  let text := strToLower (title ++ " " ++ description)
  ((CATEGORY_KEYWORDS.find? (fun p => anyKeywordIn text p.2)).map (·.1)).getD
    "Uncategorized"

/-- Relevance lookup table of `calculateRelevance`. -/
def relevanceTable : List (String × Nat) :=
  [ ("Private Markets & M&A", 5),
    ("Africa Finance", 5),
    ("Capital Strategy", 4),
    ("Operational Excellence", 4),
    ("Leadership & Conscious CFO", 3),
    ("Uncategorized", 1) ]

/-- JS `x || d` on an optional number: `undefined` and `0` are falsy. -/
def jsOrNum (x : Option Nat) (d : Nat) : Nat :=
  match x with
  | none => d
  | some v => if v = 0 then d else v

/-- `calculateRelevance(category)` from feedServices.js:
`scores[category] || 2`. -/
def calculateRelevance (category : String) : Nat :=
  jsOrNum ((relevanceTable.find? (fun p => p.1 == category)).map (·.2)) 2

/- ----------------------------------------------------------------
   Raw feed items and the image extraction tier
   ---------------------------------------------------------------- -/

/-- A raw item as produced by rss-parser: every field may be absent.
`enclosureUrl` stands for `item.enclosure?.url`, `mediaContentUrl` for
`item['media:content']?.url` and `mediaThumbnailUrl` for
`item['media:thumbnail']?.url` (absent object and absent `url` field both
collapse to `none`). -/
structure RawFeedItem where
  title : Option String := none
  link : Option String := none
  guid : Option String := none
  pubDate : Option String := none
  isoDate : Option String := none
  content : Option String := none
  contentEncoded : Option String := none
  contentSnippet : Option String := none
  enclosureUrl : Option String := none
  mediaContentUrl : Option String := none
  mediaThumbnailUrl : Option String := none
deriving DecidableEq, Repr

/-- Case-insensitive ASCII comparison of a pattern against the start of a
character list. -/
def startsWithCI (pat : List Char) (s : List Char) : Bool :=
  (s.take pat.length).map Char.toLower == pat

/-- Candidate match of `src=('|")([^'">]+)('|")` starting exactly at `s`
(case-insensitive `src=`), returning the capture group. -/
def srcMatchAt (s : List Char) : Option String :=
  if startsWithCI "src=".toList s then
    match s.drop 4 with
    | q :: rest =>
      if q = '\'' || q = '"' then
        let cap := rest.takeWhile (fun c => !(c = '\'' || c = '"' || c = '>'))
        match rest.drop cap.length with
        | q2 :: _ =>
            if (q2 = '\'' || q2 = '"') && !cap.isEmpty then some ⟨cap⟩ else none
        | [] => none
      else none
    | [] => none
  else none

/-- Scan of the `[^>]+src=...` region after a `<img`: walk the characters up
to the first `>`; `seen` records that at least one character separates
`<img` from the `src=` (the `[^>]+` is non-empty); the greedy `[^>]+`
backtracks from the longest prefix, so the rightmost valid `src=` wins —
modelled by keeping the last success. -/
def imgTagScan : List Char → Bool → Option String → Option String
  | [], _, best => best
  | c :: rest, seen, best =>
      if c = '>' then best
      else
        let best' :=
          if seen then
            match srcMatchAt (c :: rest) with
            | some cap => some cap
            | none => best
          else best
        imgTagScan rest true best'

/-- Leftmost-match search for the regex
`<img[^>]+src=(?:'|")([^'">]+)(?:'|")` (flag `i`) used by
`extractImageFromItem`: try each `<img` occurrence from the left; within a
tag the greedy `[^>]+` yields the rightmost valid `src=`. -/
def findImgSrc : List Char → Option String
  | [] => none
  | c :: rest =>
      if startsWithCI "<img".toList (c :: rest) then
        match imgTagScan (List.drop 3 rest) false none with
        | some cap => some cap
        | none => findImgSrc rest
      else findImgSrc rest

/-- `extractImageFromItem(item)` from feedServices.js: the well-known RSS
fields in source order (enclosure, then media-content, then
media-thumbnail), then an `<img>` `src` extracted from the first truthy
content field (`content`, `content:encoded`, `contentSnippet`), else
nothing (the page scrape is the caller's separate fallback). -/
def extractImageFromItem (item : RawFeedItem) : Option String :=
  match strTruthy item.enclosureUrl with
  | some u => some u
  | none =>
  match strTruthy item.mediaContentUrl with
  | some u => some u
  | none =>
  match strTruthy item.mediaThumbnailUrl with
  | some u => some u
  | none =>
    let html := (jsOrStr item.content (jsOrStr item.contentEncoded item.contentSnippet)).getD ""
    if html = "" then none else findImgSrc html.toList

/-- The image-resolver order exactly as the claim words it: enclosure URL,
then media-thumbnail URL, then media-content URL, first present wins.
Written from the claim for comparison with `extractImageFromItem`. -/
def claimedMediaOrder (item : RawFeedItem) : Option String :=
  match strTruthy item.enclosureUrl with
  | some u => some u
  | none =>
  match strTruthy item.mediaThumbnailUrl with
  | some u => some u
  | none => strTruthy item.mediaContentUrl

/- ----------------------------------------------------------------
   URL normalization (`normalizeUrl`)
   ---------------------------------------------------------------- -/

/-- The regex test `/^https?:\/\//i.test(src)`. -/
def isAbsoluteHttp (src : String) : Bool :=
  "http://".toList.isPrefixOf ((strToLower src).toList)
    || "https://".toList.isPrefixOf ((strToLower src).toList)

/-- Split at the first occurrence of `pat`, returning the pieces before and
after it. -/
def splitOnce (pat : List Char) : List Char → Option (List Char × List Char)
  | [] => none
  | c :: rest =>
      if pat.isPrefixOf (c :: rest) then some ([], (c :: rest).drop pat.length)
      else
        match splitOnce pat rest with
        | some (b, a) => some (c :: b, a)
        | none => none

/-- Scheme, host and path of an absolute URL; `none` when the text has no
`scheme://host` shape (the `new URL` constructor throws on such a base). -/
def parseBaseUrl (base : String) : Option (String × String × String) :=
  match splitOnce "://".toList base.toList with
  | none => none
  | some (scheme, rest) =>
      if scheme.isEmpty then none
      else
        let host := rest.takeWhile (fun c => c ≠ '/')
        if host.isEmpty then none
        else some (⟨scheme⟩, ⟨host⟩, ⟨rest.drop host.length⟩)

/-- Directory part of a URL path: everything up to and including the last
slash; `/` when the path has none. -/
def dirOfPath (path : String) : String :=
  let d := (path.toList.reverse.dropWhile (fun c => c ≠ '/')).reverse
  if d.isEmpty then "/" else ⟨d⟩

/-- Models the WHATWG `new URL(src, base).toString()` resolution on the
shapes the resolver meets: an already-absolute `src` (any scheme) is kept,
`//…` adopts the base scheme, `/…` replaces the base path, anything else is
resolved against the directory of the base path; an unparsable base throws,
modelled as `none`. -/
def urlResolve (base src : String) : Option String :=
  match parseBaseUrl base with
  | none => none
  | some (scheme, host, path) =>
      if (splitOnce "://".toList src.toList).isSome then some src
      else if "//".toList.isPrefixOf src.toList then
        some (scheme ++ ":" ++ src)
      else if "/".toList.isPrefixOf src.toList then
        some (scheme ++ "://" ++ host ++ src)
      else
        some (scheme ++ "://" ++ host ++ dirOfPath path ++ src)

/-- `normalizeUrl(base, src)` from feedServices.js: falsy `src` gives null,
an `https?://` `src` is returned as-is, otherwise `new URL(src, base)` is
attempted and a throw gives null. -/
def normalizeUrl (base src : String) : Option String :=
  if src = "" then none
  else if isAbsoluteHttp src then some src
  else urlResolve base src

/- ----------------------------------------------------------------
   Article store (`articles.js`) and the `$set` upsert
   ---------------------------------------------------------------- -/

/-- The `articleData` document assembled in `fetchAllFeeds` — exactly the
fields the `$set` operator receives.  Dates are modelled as timestamps. -/
structure ArticleData where
  title : String
  url : String
  source : String
  category : String
  description : String
  publishedDate : Nat
  relevanceScore : Nat
  image : Option String
deriving DecidableEq, Repr

/-- A persisted article: the content fields plus the reader-owned flags of
`articleSchema`, which default to `false` on insert. -/
structure Article where
  data : ArticleData
  isRead : Bool
  isSaved : Bool
deriving DecidableEq, Repr

/-- `Article.updateOne({ url }, { $set: articleData }, { upsert: true })`:
the first stored document with this `url` has exactly the `$set` fields
replaced (all other fields, in particular `isRead`/`isSaved`, untouched);
with no match a new document is inserted with the schema defaults. -/
def upsertByUrl (store : List Article) (d : ArticleData) : List Article :=
  match store with
  | [] => [⟨d, false, false⟩]
  | a :: rest =>
      if a.data.url = d.url then { a with data := d } :: rest
      else a :: upsertByUrl rest d

/- ----------------------------------------------------------------
   Orchestrator (`fetchAllFeeds`) and feed fetching with retries
   ---------------------------------------------------------------- -/

/-- `safeDate(dateLike)`: an absent argument or a string the platform
`Date` parser (oracle `parseDate`) rejects yields the current time. -/
def safeDate (parseDate : String → Option Nat) (now : Nat)
    (dateLike : Option String) : Nat :=
  match dateLike with
  | none => now
  | some s => (parseDate s).getD now

/-- ASCII whitespace trim, modelling JS `String.prototype.trim` on the
ASCII texts the pipeline handles. -/
def strTrim (s : String) : String :=
  let ws := fun c => c = ' ' || c = '\t' || c = '\n' || c = '\r'
  ⟨((s.data.dropWhile ws).reverse.dropWhile ws).reverse⟩

/-- `(item.title || '').trim() || 'No title'`. -/
def titleOf (item : RawFeedItem) : String :=
  let t := strTrim ((strTruthy item.title).getD "")
  if t = "" then "No title" else t

/-- `(item.contentSnippet || item['content:encoded'] || item.content || '').trim()`. -/
def descOf (item : RawFeedItem) : String :=
  strTrim ((jsOrStr item.contentSnippet
    (jsOrStr item.contentEncoded item.content)).getD "")

/-- `item.link || item.guid || '#'` — the upsert key. -/
def dedupUrl (item : RawFeedItem) : String :=
  (jsOrStr item.link item.guid).getD "#"

/-- `scrapePageForImage(url)`: a falsy target returns null immediately; the
guarded axios/cheerio scrape of a real URL is the network oracle
`scrape`. -/
def scrapePageForImage (scrape : String → Option String)
    (target : Option String) : Option String :=
  match strTruthy target with
  | none => none
  | some u => scrape u

/-- The `articleData` document built for one item inside `fetchAllFeeds`:
normalization, classification, image resolution (feed fields first, page
scrape only if those were falsy, then re-normalization against the item
link), and the bounded description. -/
def articleDataOf (scrape : String → Option String)
    (parseDate : String → Option Nat) (now : Nat)
    (sourceLabel : String) (item : RawFeedItem) : ArticleData :=
  let title := titleOf item
  let desc := descOf item
  let category := categorizeArticle title desc
  let relevanceScore := calculateRelevance category
  let image0 := extractImageFromItem item
  let image1 :=
    match strTruthy image0 with
    | some v => some v
    | none => strTruthy (scrapePageForImage scrape (jsOrStr item.link item.guid))
  let image2 :=
    match strTruthy image1, strTruthy item.link with
    | some img, some link =>
        match normalizeUrl link img with
        | some n => some n
        | none => some img
    | _, _ => image1
  { title := title
    url := dedupUrl item
    source := sourceLabel
    category := category
    description := strTake desc 1200
    publishedDate := safeDate parseDate now (jsOrStr item.pubDate item.isoDate)
    relevanceScore := relevanceScore
    image := strTruthy image2 }

/-- One queued unit of work of `fetchAllFeeds`: build the document and
upsert it by `url`. -/
def processItem (scrape : String → Option String)
    (parseDate : String → Option Nat) (now : Nat) (sourceLabel : String)
    (store : List Article) (item : RawFeedItem) : List Article :=
  upsertByUrl store (articleDataOf scrape parseDate now sourceLabel item)

/-- All items of one feed: each item's task runs `processItem` and bumps
`totalSaved` once; the result is the store after all of the feed's tasks
and their item count. -/
def processFeedItems (scrape : String → Option String)
    (parseDate : String → Option Nat) (now : Nat) (sourceLabel : String)
    (store : List Article) : List RawFeedItem → List Article × Nat
  | [] => (store, 0)
  | item :: rest =>
      let st := processItem scrape parseDate now sourceLabel store item
      let r := processFeedItems scrape parseDate now sourceLabel st rest
      (r.1, r.2 + 1)

/-- `MAX_FEED_RETRIES` from feedServices.js. -/
def MAX_FEED_RETRIES : Nat := 2

/-- `MAX_SCRAPE_CONCURRENCY` from feedServices.js. -/
def MAX_SCRAPE_CONCURRENCY : Nat := 4

/-- Attempt loop of `fetchFeedItemsWithRetries`: `oracle a` is the outcome
of `parser.parseURL` on attempt `a` (with `parsed?.items || []` already
applied on success); `remaining` counts the attempts still allowed. -/
def fetchRetriesAux (oracle : Nat → Except Unit (List RawFeedItem)) :
    Nat → Nat → List RawFeedItem
  | _, 0 => []
  | attempt, r + 1 =>
      match oracle attempt with
      | .ok items => items
      | .error _ => fetchRetriesAux oracle (attempt + 1) r

/-- `fetchFeedItemsWithRetries(feed, retries)`: the loop runs attempts
`0..retries` and falls back to the empty list. -/
def fetchFeedItemsWithRetries (oracle : Nat → Except Unit (List RawFeedItem))
    (retries : Nat) : List RawFeedItem :=
  fetchRetriesAux oracle 0 (retries + 1)

/-- One entry of the feeds list passed to `fetchAllFeeds`. -/
structure FeedSpec where
  url : String
  source : String
deriving DecidableEq, Repr

/-- Sequential feed loop of `fetchAllFeeds(feeds)`: per feed the items of
`fetchFeedItemsWithRetries` are processed and counted; the result is the
final store and the `totalSaved` counter (observable only in the final log
line). -/
def fetchAllFeedsAux
    (parseAttempt : String → Nat → Except Unit (List RawFeedItem))
    (scrape : String → Option String) (parseDate : String → Option Nat)
    (now : Nat) : List FeedSpec → List Article → List Article × Nat
  | [], store => (store, 0)
  | feed :: rest, store =>
      let items := fetchFeedItemsWithRetries (parseAttempt feed.url) MAX_FEED_RETRIES
      let step := processFeedItems scrape parseDate now feed.source store items
      let r := fetchAllFeedsAux parseAttempt scrape parseDate now rest step.1
      (r.1, step.2 + r.2)

/-- `fetchAllFeeds(feeds)` as an outcome triple: the final store, the
`totalSaved` counter, and the function's returned value — the JS function
body has no `return` statement, so its promise resolves with `undefined`,
modelled as `none`. -/
def fetchAllFeedsRun
    (parseAttempt : String → Nat → Except Unit (List RawFeedItem))
    (scrape : String → Option String) (parseDate : String → Option Nat)
    (now : Nat) (feeds : List FeedSpec) (store : List Article) :
    List Article × Nat × Option Nat :=
  let r := fetchAllFeedsAux parseAttempt scrape parseDate now feeds store
  (r.1, r.2, none)

/- ----------------------------------------------------------------
   Concurrency gate (`createLimitedQueue`)
   ---------------------------------------------------------------- -/

/-- Observable scheduler events of `createLimitedQueue`'s returned
function. -/
inductive GateEvent where
  | submit (t : Nat)
  | complete (t : Nat)
  | resume (t : Nat)
deriving DecidableEq, Repr

/-- State of one `createLimitedQueue` instance: the `active` counter, the
`queue` of parked resolvers (`waiting`), the resolvers already resolved
whose continuations have not run yet (`woken` — a resolve only schedules a
microtask), and the tasks whose `fn` is currently running. -/
structure GateState where
  active : Nat
  waiting : List Nat
  woken : List Nat
  running : List Nat
deriving DecidableEq, Repr

/-- One step of `createLimitedQueue`:
* `submit t` — `run(fn)` entered: with `active >= limit` the task parks a
  resolver at the end of `queue`; otherwise `active++` and `fn` starts;
* `complete t` — `fn` settled, the `finally` runs: `active--`, then
  `queue.shift()` and, when a resolver came off, it is resolved (its
  continuation is now pending, not yet run);
* `resume t` — the pending continuation of a resolved waiter runs:
  `active++` and `fn` starts, with no re-check of `active >= limit` (the
  guard in the source is an `if`, not a loop). -/
def gateStep (limit : Nat) (s : GateState) : GateEvent → GateState
  | .submit t =>
      if s.active ≥ limit then { s with waiting := s.waiting ++ [t] }
      else { s with active := s.active + 1, running := s.running ++ [t] }
  | .complete t =>
      if s.running.contains t then
        let s' := { s with active := s.active - 1, running := s.running.erase t }
        match s'.waiting with
        | [] => s'
        | h :: rest => { s' with waiting := rest, woken := s'.woken ++ [h] }
      else s
  | .resume t =>
      if s.woken.contains t then
        { s with active := s.active + 1, woken := s.woken.erase t,
                 running := s.running ++ [t] }
      else s

/-- Run a sequence of gate events from the fresh state of
`createLimitedQueue(limit)`. -/
def gateExec (limit : Nat) (events : List GateEvent) : GateState :=
  events.foldl (gateStep limit) ⟨0, [], [], []⟩

/- ----------------------------------------------------------------
   Helper lemmas
   ---------------------------------------------------------------- -/

theorem categorizeLoop_eq_find (text : String) :
    ∀ l : List (String × List String),
      categorizeLoop text l
        = ((l.find? (fun p => anyKeywordIn text p.2)).map (fun p => p.1)).getD
            "Uncategorized"
  | [] => rfl
  | (c, k) :: rest => by
      cases h : anyKeywordIn text k with
      | true => simp [categorizeLoop, List.find?, h]
      | false => simp [categorizeLoop, List.find?, h, categorizeLoop_eq_find text rest]

/- ----------------------------------------------------------------
   Claim theorems
   ---------------------------------------------------------------- -/

/-- C5: `categorizeArticle` lowercases the title/description text, tests the
categories in the fixed priority order Capital Strategy, Private Markets &
M&A, Operational Excellence, Leadership & Conscious CFO, Africa Finance via
keyword substring containment and returns the first match, falling back to
`Uncategorized` when no keyword of any category occurs; a text containing
both "inflation" and "africa" yields Capital Strategy. -/
theorem categorize_priority_order :
    (∀ title description,
        categorizeArticle title description = categorizeSpec title description)
    ∧ categorizeArticle "Inflation outlook" "rates across Africa"
        = "Capital Strategy"
    ∧ (∀ title description,
        (∀ p ∈ CATEGORY_KEYWORDS,
            anyKeywordIn (strToLower (title ++ " " ++ description)) p.2 = false) →
        categorizeArticle title description = "Uncategorized") := by
  refine ⟨fun title description => ?_, by decide, fun title description h => ?_⟩
  · simpa [categorizeArticle, categorizeSpec] using
      categorizeLoop_eq_find (strToLower (title ++ " " ++ description))
        CATEGORY_KEYWORDS
  · have hf : CATEGORY_KEYWORDS.find?
        (fun p => anyKeywordIn (strToLower (title ++ " " ++ description)) p.2)
        = none := by
      rw [List.find?_eq_none]
      intro p hp
      simp [h p hp]
    simp [categorizeArticle,
      categorizeLoop_eq_find (strToLower (title ++ " " ++ description))
        CATEGORY_KEYWORDS, hf]

/-- Witness for C5 at concrete inputs: "hello"/"world" matches no keyword and
is Uncategorized, and the code and spec readings agree on it. -/
theorem categorize_priority_order_witness :
    categorizeArticle "hello" "world" = "Uncategorized"
    ∧ categorizeArticle "hello" "world" = categorizeSpec "hello" "world" :=
  ⟨categorize_priority_order.2.2 "hello" "world" (by decide),
   categorize_priority_order.1 "hello" "world"⟩

/-- C6: `calculateRelevance` returns exactly the table value for each
category — Private Markets & M&A and Africa Finance 5, Capital Strategy and
Operational Excellence 4, Leadership & Conscious CFO 3, Uncategorized 1 —
any string outside the table gets 2, and every result lies in `[1, 5]`. -/
theorem relevance_score_table :
    calculateRelevance "Private Markets & M&A" = 5
    ∧ calculateRelevance "Africa Finance" = 5
    ∧ calculateRelevance "Capital Strategy" = 4
    ∧ calculateRelevance "Operational Excellence" = 4
    ∧ calculateRelevance "Leadership & Conscious CFO" = 3
    ∧ calculateRelevance "Uncategorized" = 1
    ∧ (∀ c, c ∉ relevanceTable.map (fun p => p.1) → calculateRelevance c = 2)
    ∧ (∀ c, 1 ≤ calculateRelevance c ∧ calculateRelevance c ≤ 5) := by
  refine ⟨by decide, by decide, by decide, by decide, by decide, by decide,
    fun c h => ?_, fun c => ?_⟩
  · have hf : relevanceTable.find? (fun p => p.1 == c) = none := by
      rw [List.find?_eq_none]
      intro p hp
      simp only [beq_iff_eq]
      intro hpc
      exact h (hpc ▸ List.mem_map_of_mem (fun p => p.1) hp)
    simp [calculateRelevance, hf, jsOrNum]
  · cases hf : relevanceTable.find? (fun p => p.1 == c) with
    | none => simp [calculateRelevance, hf, jsOrNum]
    | some p =>
        have hp : p ∈ relevanceTable := List.mem_of_find?_eq_some hf
        fin_cases hp <;> simp_all [calculateRelevance, jsOrNum]

/-- Witness for C6: an off-table category scores the default 2, and the
bounds hold at a concrete category. -/
theorem relevance_score_table_witness :
    calculateRelevance "Corporate Finance" = 2
    ∧ (1 ≤ calculateRelevance "Capital Strategy"
        ∧ calculateRelevance "Capital Strategy" ≤ 5) :=
  ⟨relevance_score_table.2.2.2.2.2.2.1 "Corporate Finance" (by decide),
   relevance_score_table.2.2.2.2.2.2.2 "Capital Strategy"⟩

/-- C2 counterexample: on an item carrying only a media-thumbnail URL "T"
and a media-content URL "C", `extractImageFromItem` returns "C" — the
source checks media-content before media-thumbnail — while the claimed
order (enclosure, thumbnail, content) would return "T". -/
theorem extract_media_order_counterexample :
    extractImageFromItem
        { mediaContentUrl := some "C", mediaThumbnailUrl := some "T" }
      = some "C"
    ∧ claimedMediaOrder
        { mediaContentUrl := some "C", mediaThumbnailUrl := some "T" }
      = some "T"
    ∧ extractImageFromItem
        { mediaContentUrl := some "C", mediaThumbnailUrl := some "T" }
      ≠ claimedMediaOrder
          { mediaContentUrl := some "C", mediaThumbnailUrl := some "T" } := by
  decide

/-- C2 amended: the image resolver checks the feed-embedded media fields in
the priority order enclosure URL, then media-content URL, then
media-thumbnail URL, and returns the first truthy one. -/
theorem extract_media_order :
    ∀ (item : RawFeedItem) (u : String),
      (strTruthy item.enclosureUrl = some u →
          extractImageFromItem item = some u)
      ∧ (strTruthy item.enclosureUrl = none →
          strTruthy item.mediaContentUrl = some u →
          extractImageFromItem item = some u)
      ∧ (strTruthy item.enclosureUrl = none →
          strTruthy item.mediaContentUrl = none →
          strTruthy item.mediaThumbnailUrl = some u →
          extractImageFromItem item = some u) := by
  intro item u
  refine ⟨fun h1 => ?_, fun h1 h2 => ?_, fun h1 h2 h3 => ?_⟩ <;>
    unfold extractImageFromItem
  · rw [h1]
  · rw [h1, h2]
  · rw [h1, h2, h3]

/-- Witness for C2 amended at concrete items for each media tier. -/
theorem extract_media_order_witness :
    extractImageFromItem { enclosureUrl := some "E", mediaContentUrl := some "C" }
      = some "E"
    ∧ extractImageFromItem { mediaContentUrl := some "C", mediaThumbnailUrl := some "T" }
      = some "C"
    ∧ extractImageFromItem { mediaThumbnailUrl := some "T" } = some "T" :=
  ⟨(extract_media_order { enclosureUrl := some "E", mediaContentUrl := some "C" } "E").1
      rfl,
   (extract_media_order { mediaContentUrl := some "C", mediaThumbnailUrl := some "T" } "C").2.1
      rfl rfl,
   (extract_media_order { mediaThumbnailUrl := some "T" } "T").2.2 rfl rfl rfl⟩

/-- C9: `normalizeUrl` keeps an already-absolute `http(s)` source unchanged
(case-insensitive scheme test), resolves a relative source against the page
URL — `/img/a.jpg` at `https://example.com/article` gives
`https://example.com/img/a.jpg` — and yields `none` for an empty source or
when resolution fails on a malformed base, so the resolver can continue
down its chain. -/
theorem normalizeUrl_resolution :
    (∀ base src, isAbsoluteHttp src = true → normalizeUrl base src = some src)
    ∧ normalizeUrl "https://example.com/article" "/img/a.jpg"
        = some "https://example.com/img/a.jpg"
    ∧ (∀ base, normalizeUrl base "" = none)
    ∧ normalizeUrl "notaurl" "img/a.jpg" = none := by
  refine ⟨fun base src h => ?_, by decide, fun base => ?_, by decide⟩
  · have hne : src ≠ "" := by
      intro he
      subst he
      exact absurd h (by decide)
    simp [normalizeUrl, hne, h]
  · simp [normalizeUrl]

/-- Witness for C9: an absolute (upper-case scheme) source is returned
unchanged, and the empty source yields none, at concrete inputs. -/
theorem normalizeUrl_resolution_witness :
    normalizeUrl "https://example.com/a" "HTTPS://cdn.example.org/p.png"
      = some "HTTPS://cdn.example.org/p.png"
    ∧ normalizeUrl "https://example.com/a" "" = none :=
  ⟨normalizeUrl_resolution.1 "https://example.com/a"
      "HTTPS://cdn.example.org/p.png" (by decide),
   normalizeUrl_resolution.2.2.1 "https://example.com/a"⟩

theorem fetchRetriesAux_congr (o o' : Nat → Except Unit (List RawFeedItem)) :
    ∀ (n a : Nat), (∀ k, a ≤ k → k < a + n → o k = o' k) →
      fetchRetriesAux o a n = fetchRetriesAux o' a n
  | 0, _, _ => rfl
  | n + 1, a, h => by
      simp only [fetchRetriesAux]
      rw [h a (Nat.le_refl a) (by omega)]
      cases o' a with
      | ok items => rfl
      | error e =>
          exact fetchRetriesAux_congr o o' n (a + 1)
            (fun k hk1 hk2 => h k (by omega) (by omega))

theorem fetchRetriesAux_all_fail (o : Nat → Except Unit (List RawFeedItem)) :
    ∀ (n a : Nat), (∀ k, a ≤ k → k < a + n → o k = .error ()) →
      fetchRetriesAux o a n = []
  | 0, _, _ => rfl
  | n + 1, a, h => by
      simp only [fetchRetriesAux]
      rw [h a (Nat.le_refl a) (by omega)]
      exact fetchRetriesAux_all_fail o n (a + 1)
        (fun k hk1 hk2 => h k (by omega) (by omega))

/-- C7: the feed fetcher's result depends only on the outcomes of attempts
0, 1 and 2 — it makes at most 3 attempts — its boundary type is a plain
item list (no error escapes), an all-failing feed yields the empty list,
and the orchestrator run on such a feed equals the run on the remaining
feeds: subsequent sources are still processed. -/
theorem fetch_retries_bounded :
    (∀ o o' : Nat → Except Unit (List RawFeedItem),
        (∀ a, a < 3 → o a = o' a) →
        fetchFeedItemsWithRetries o MAX_FEED_RETRIES
          = fetchFeedItemsWithRetries o' MAX_FEED_RETRIES)
    ∧ (∀ o : Nat → Except Unit (List RawFeedItem),
        (∀ a, a < 3 → o a = .error ()) →
        fetchFeedItemsWithRetries o MAX_FEED_RETRIES = [])
    ∧ (∀ parseAttempt scrape parseDate now (feed : FeedSpec) rest store,
        (∀ a, a < 3 → parseAttempt feed.url a = .error ()) →
        fetchAllFeedsRun parseAttempt scrape parseDate now (feed :: rest) store
          = fetchAllFeedsRun parseAttempt scrape parseDate now rest store) := by
  refine ⟨fun o o' h => ?_, fun o h => ?_,
    fun parseAttempt scrape parseDate now feed rest store h => ?_⟩
  · exact fetchRetriesAux_congr o o' 3 0 (fun k _ hk => h k (by omega))
  · exact fetchRetriesAux_all_fail o 3 0 (fun k _ hk => h k (by omega))
  · have hempty : fetchFeedItemsWithRetries (parseAttempt feed.url) MAX_FEED_RETRIES
        = [] :=
      fetchRetriesAux_all_fail (parseAttempt feed.url) 3 0
        (fun k _ hk => h k (by omega))
    simp [fetchAllFeedsRun, fetchAllFeedsAux, hempty, processFeedItems]

/-- Oracle of a feed whose every parse attempt fails. -/
def failOracle : Nat → Except Unit (List RawFeedItem) := fun _ => .error ()

/-- Per-feed attempt oracle where every feed fails every attempt. -/
def failParseAttempt : String → Nat → Except Unit (List RawFeedItem) :=
  fun _ _ => .error ()

/-- Witness for C7: a concretely failing feed yields no items, and the run
on it followed by a second source equals the run on the second source
alone. -/
theorem fetch_retries_bounded_witness :
    fetchFeedItemsWithRetries failOracle MAX_FEED_RETRIES = []
    ∧ fetchAllFeedsRun failParseAttempt (fun _ => none) (fun _ => none) 0
        [⟨"https://a.example/feed", "A"⟩, ⟨"https://b.example/feed", "B"⟩] []
      = fetchAllFeedsRun failParseAttempt (fun _ => none) (fun _ => none) 0
          [⟨"https://b.example/feed", "B"⟩] [] :=
  ⟨fetch_retries_bounded.2.1 failOracle (fun _ _ => rfl),
   fetch_retries_bounded.2.2 failParseAttempt (fun _ => none) (fun _ => none) 0
     ⟨"https://a.example/feed", "A"⟩ [⟨"https://b.example/feed", "B"⟩] []
     (fun _ _ => rfl)⟩

theorem processFeedItems_count (scrape : String → Option String)
    (parseDate : String → Option Nat) (now : Nat) (sourceLabel : String) :
    ∀ (items : List RawFeedItem) (store : List Article),
      (processFeedItems scrape parseDate now sourceLabel store items).2
        = items.length
  | [], _ => rfl
  | item :: rest, store => by
      simp [processFeedItems,
        processFeedItems_count scrape parseDate now sourceLabel rest]

theorem fetchAllFeedsAux_count
    (parseAttempt : String → Nat → Except Unit (List RawFeedItem))
    (scrape : String → Option String) (parseDate : String → Option Nat)
    (now : Nat) :
    ∀ (feeds : List FeedSpec) (store : List Article),
      (fetchAllFeedsAux parseAttempt scrape parseDate now feeds store).2
        = (feeds.map (fun f =>
            (fetchFeedItemsWithRetries (parseAttempt f.url)
              MAX_FEED_RETRIES).length)).sum
  | [], _ => rfl
  | feed :: rest, store => by
      simp [fetchAllFeedsAux, processFeedItems_count,
        fetchAllFeedsAux_count parseAttempt scrape parseDate now rest]

/-- Parse oracle delivering exactly one item for any feed and attempt. -/
def oneItemParseAttempt : String → Nat → Except Unit (List RawFeedItem) :=
  fun _ _ => .ok [{ title := some "A", link := some "https://e.example/a" }]

/-- C4 counterexample: on a run that processes exactly one item the
`totalSaved` counter is 1 but the value `fetchAllFeeds` returns is
`undefined` (`none`), not the count. -/
theorem fetchAllFeeds_returns_no_count :
    (fetchAllFeedsRun oneItemParseAttempt (fun _ => none) (fun _ => none) 0
        [⟨"https://e.example/feed", "S"⟩] []).2.1 = 1
    ∧ (fetchAllFeedsRun oneItemParseAttempt (fun _ => none) (fun _ => none) 0
        [⟨"https://e.example/feed", "S"⟩] []).2.2 = none
    ∧ (fetchAllFeedsRun oneItemParseAttempt (fun _ => none) (fun _ => none) 0
          [⟨"https://e.example/feed", "S"⟩] []).2.2
        ≠ some ((fetchAllFeedsRun oneItemParseAttempt (fun _ => none)
            (fun _ => none) 0 [⟨"https://e.example/feed", "S"⟩] []).2.1) := by
  decide

/-- C4 amended: `fetchAllFeeds` counts the processed items of every source
in its `totalSaved` counter (it equals the total number of fetched items),
but the function returns no value — its promise resolves with
`undefined`. -/
theorem fetchAllFeeds_counts_processed_items :
    ∀ parseAttempt scrape parseDate now feeds store,
      (fetchAllFeedsRun parseAttempt scrape parseDate now feeds store).2.1
          = (feeds.map (fun f =>
              (fetchFeedItemsWithRetries (parseAttempt f.url)
                MAX_FEED_RETRIES).length)).sum
      ∧ (fetchAllFeedsRun parseAttempt scrape parseDate now feeds store).2.2
          = none := by
  intro parseAttempt scrape parseDate now feeds store
  exact ⟨fetchAllFeedsAux_count parseAttempt scrape parseDate now feeds store,
    rfl⟩

theorem upsertByUrl_find (d : ArticleData) :
    ∀ (store : List Article) (a : Article),
      store.find? (fun r => r.data.url == d.url) = some a →
      (upsertByUrl store d).find? (fun r => r.data.url == d.url)
        = some ⟨d, a.isRead, a.isSaved⟩
  | [], a, h => by simp [List.find?] at h
  | hd :: rest, a, h => by
      by_cases hu : hd.data.url = d.url
      · rw [List.find?_cons_of_pos _ (by simp [hu])] at h
        cases h
        simp only [upsertByUrl, if_pos hu]
        rw [List.find?_cons_of_pos _ (by simp)]
      · rw [List.find?_cons_of_neg _ (by simp [hu])] at h
        simp only [upsertByUrl, if_neg hu]
        rw [List.find?_cons_of_neg _ (by simp [hu])]
        exact upsertByUrl_find d rest a h

/-- C1: re-ingesting an item whose computed url already has a stored record
replaces that record's content fields (title, description, category, image,
publishedDate, relevanceScore, source) with the freshly assembled
`articleData`, while the record keeps whatever `isRead`/`isSaved` values
the reader had set. -/
theorem reingest_preserves_reader_flags :
    ∀ scrape parseDate now sourceLabel (item : RawFeedItem)
      (store : List Article) (a : Article),
      store.find? (fun r => r.data.url == dedupUrl item) = some a →
      (processItem scrape parseDate now sourceLabel store item).find?
          (fun r => r.data.url == dedupUrl item)
        = some ⟨articleDataOf scrape parseDate now sourceLabel item,
                a.isRead, a.isSaved⟩ := by
  intro scrape parseDate now sourceLabel item store a h
  have hurl : (articleDataOf scrape parseDate now sourceLabel item).url
      = dedupUrl item := rfl
  simp only [processItem]
  rw [← hurl] at h ⊢
  exact upsertByUrl_find (articleDataOf scrape parseDate now sourceLabel item)
    store a h

/-- Witness for C1: a stored record with `isRead` and `isSaved` set keeps
both flags when the same url is re-ingested with a new title, while the
content fields are replaced. -/
theorem reingest_preserves_reader_flags_witness :
    ([⟨⟨"Old", "https://e.example/a", "S", "Uncategorized", "old", 7, 1, none⟩,
        true, true⟩] : List Article).find?
        (fun r => r.data.url
          == dedupUrl { title := some "New", link := some "https://e.example/a" })
      = some ⟨⟨"Old", "https://e.example/a", "S", "Uncategorized", "old", 7, 1,
          none⟩, true, true⟩
    ∧ (processItem (fun _ => none) (fun _ => none) 0 "S"
          [⟨⟨"Old", "https://e.example/a", "S", "Uncategorized", "old", 7, 1,
              none⟩, true, true⟩]
          { title := some "New", link := some "https://e.example/a" }).find?
        (fun r => r.data.url
          == dedupUrl { title := some "New", link := some "https://e.example/a" })
      = some ⟨articleDataOf (fun _ => none) (fun _ => none) 0 "S"
            { title := some "New", link := some "https://e.example/a" },
          true, true⟩ :=
  ⟨by decide,
   reingest_preserves_reader_flags (fun _ => none) (fun _ => none) 0 "S"
     { title := some "New", link := some "https://e.example/a" }
     [⟨⟨"Old", "https://e.example/a", "S", "Uncategorized", "old", 7, 1, none⟩,
        true, true⟩]
     ⟨⟨"Old", "https://e.example/a", "S", "Uncategorized", "old", 7, 1, none⟩,
        true, true⟩
     (by decide)⟩

/-- C8: the description persisted for an item is `desc.substring(0, 1200)`:
never longer than 1200 characters, unchanged when the normalized
description fits, and exactly its first 1200 characters otherwise. -/
theorem description_truncated_at_1200 :
    ∀ scrape parseDate now sourceLabel (item : RawFeedItem),
      (articleDataOf scrape parseDate now sourceLabel item).description.length
          ≤ 1200
      ∧ ((descOf item).length ≤ 1200 →
          (articleDataOf scrape parseDate now sourceLabel item).description
            = descOf item)
      ∧ (1200 < (descOf item).length →
          (articleDataOf scrape parseDate now sourceLabel item).description.length
              = 1200
          ∧ (articleDataOf scrape parseDate now sourceLabel item).description.data
              = (descOf item).data.take 1200) := by
  intro scrape parseDate now sourceLabel item
  have hd : (articleDataOf scrape parseDate now sourceLabel item).description
      = strTake (descOf item) 1200 := rfl
  rw [hd]
  refine ⟨?_, fun hle => ?_, fun hgt => ⟨?_, rfl⟩⟩
  · show ((descOf item).data.take 1200).length ≤ 1200
    simp [List.length_take]
  · show (⟨(descOf item).data.take 1200⟩ : String) = descOf item
    have hlen : (descOf item).data.length ≤ 1200 := hle
    rw [List.take_of_length_le hlen]
  · show ((descOf item).data.take 1200).length = 1200
    have hlen : 1200 < (descOf item).data.length := hgt
    rw [List.length_take]
    omega

set_option maxRecDepth 100000 in
/-- Witness for C8: a 1201-character description is stored with exactly
1200 characters, and a short description is stored unchanged. -/
theorem description_truncated_at_1200_witness :
    (articleDataOf (fun _ => none) (fun _ => none) 0 "S"
        { contentSnippet := some ⟨List.replicate 1201 'a'⟩ }).description.length
      = 1200
    ∧ (articleDataOf (fun _ => none) (fun _ => none) 0 "S"
        { contentSnippet := some "short" }).description = descOf
          { contentSnippet := some "short" } :=
  ⟨((description_truncated_at_1200 (fun _ => none) (fun _ => none) 0 "S"
      { contentSnippet := some ⟨List.replicate 1201 'a'⟩ }).2.2
      (by decide)).1,
   (description_truncated_at_1200 (fun _ => none) (fun _ => none) 0 "S"
      { contentSnippet := some "short" }).2.1 (by decide)⟩

/-- Parse oracle delivering two items that carry neither a link nor a
guid. -/
def twoLinklessParseAttempt : String → Nat → Except Unit (List RawFeedItem) :=
  fun _ _ => .ok [{ title := some "A" }, { title := some "B" }]

/-- C10: an item with neither link nor guid gets the sentinel url `#` as
its dedup key, and concretely a feed with two such items ends the run with
a single stored record keyed `#` whose content fields come from the second
item — each link-less item overwrote the previous one. -/
theorem linkless_items_share_one_record :
    (∀ item : RawFeedItem,
        strTruthy item.link = none → strTruthy item.guid = none →
        dedupUrl item = "#")
    ∧ (fetchAllFeedsRun twoLinklessParseAttempt (fun _ => none) (fun _ => none)
          0 [⟨"https://e.example/feed", "S"⟩] []).1
        = [⟨⟨"B", "#", "S", "Uncategorized", "", 0, 1, none⟩, false, false⟩] := by
  constructor
  · intro item h1 h2
    simp [dedupUrl, jsOrStr, h1, h2]
  · decide

/-- Witness for C10 at a concrete link-less, guid-less item. -/
theorem linkless_items_share_one_record_witness :
    dedupUrl { title := some "A" } = "#" :=
  linkless_items_share_one_record.1 { title := some "A" } rfl rfl

/-- C3 (exhibit): `createLimitedQueue(4)` — the gate actually used per feed
— admits a fifth concurrently running task: with four tasks running and one
parked, a completion resolves the parked task, a task submitted before the
resolved continuation runs slips under the limit, and the woken task then
increments `active` without re-checking it, reaching five running tasks. -/
theorem gate_admits_over_limit :
    (gateExec MAX_SCRAPE_CONCURRENCY
        [GateEvent.submit 0, GateEvent.submit 1, GateEvent.submit 2,
         GateEvent.submit 3, GateEvent.submit 4, GateEvent.complete 0,
         GateEvent.submit 5, GateEvent.resume 4]).active = 5
    ∧ (gateExec MAX_SCRAPE_CONCURRENCY
        [GateEvent.submit 0, GateEvent.submit 1, GateEvent.submit 2,
         GateEvent.submit 3, GateEvent.submit 4, GateEvent.complete 0,
         GateEvent.submit 5, GateEvent.resume 4]).running
      = [1, 2, 3, 5, 4]
    ∧ MAX_SCRAPE_CONCURRENCY < 5 := by
  decide

